import Mathlib

/-!
Shallow embedding of `src/features/PathAutocompleteProvider.ts`
(path-autocomplete repository).

The provider resolves the directory a typed path fragment points at and
turns its entries into completion candidates.  JavaScript strings are
modelled as Lean `String` / `List Char`; the Node `path` module, the
filesystem, the JS regular-expression engine and the `minimatch` glob
matcher are kept abstract as parameter structures (`PathLib`, `FS`,
`RegexEngine`, a glob function), since the provider only composes their
results.  The asynchronous directory listing is collapsed into an
`Except` value: a rejected promise is `Except.error`.
-/

namespace PathAutocomplete

/-- Character constants (written via code points to keep literals plain). -/
def squote : Char := Char.ofNat 39

def dquote : Char := Char.ofNat 34

def btick : Char := Char.ofNat 96

def bslash : Char := Char.ofNat 92

def obraceC : Char := Char.ofNat 123

def obrackC : Char := Char.ofNat 91

/-- JS `String.prototype.replace` with a string pattern: replace the first
occurrence of `pat` (taken literally) by `repl`; no occurrence leaves the
list unchanged.  An empty pattern matches at position 0, as in JS. -/
def replaceFirstList (pat repl : List Char) : List Char → List Char
  | [] => if pat = [] then repl else []
  | c :: rest =>
    if pat.isPrefixOf (c :: rest) then repl ++ (c :: rest).drop pat.length
    else c :: replaceFirstList pat repl rest

def replaceFirstStr (s pat repl : String) : String :=
  String.mk (replaceFirstList pat.data repl.data s.data)

/-- Substring containment test (JS `/require|import/`-style regex reduced to
its literal-alternative substring test). -/
def containsSub (pat : List Char) : List Char → Bool
  | [] => pat == []
  | c :: rest => pat.isPrefixOf (c :: rest) || containsSub pat rest

/-- JS `String.prototype.startsWith`. -/
def startsWithStr (s pre : String) : Bool := pre.data.isPrefixOf s.data

/-- Index of the last occurrence of `c`, scanning with explicit positions. -/
def lastIdxOf (c : Char) : List Char → Nat → Option Nat → Option Nat
  | [], _, acc => acc
  | d :: rest, i, acc => lastIdxOf c rest (i + 1) (if d == c then some i else acc)

/-- Node `path.extname` for the plain entry names produced by `readdir`
(no directory separators): the suffix from the last dot, empty when there
is no dot or the only dot is the leading character. -/
def extnameStr (s : String) : String :=
  match lastIdxOf (Char.ofNat 46) s.data 0 none with
  | none => ""
  | some 0 => ""
  | some i => String.mk (s.data.drop i)

/-- Node `path.basename` for plain entry names (no separators): the part
after the last slash. -/
def basenameStr (s : String) : String :=
  match lastIdxOf (Char.ofNat 47) s.data 0 none with
  | none => s
  | some i => String.mk (s.data.drop (i + 1))

/-- Node `path.basename(name, ext)`: additionally strips `ext` when it is a
proper suffix of the computed base name. -/
def basenameWithExt (s ext : String) : String :=
  let b := basenameStr s
  if ext ≠ "" && ext.data.isSuffixOf b.data && decide (ext.data.length < b.data.length) then
    String.mk (b.data.take (b.data.length - ext.data.length))
  else b

/-- ASCII-letter test, the `[a-z]` character class with the `i` flag. -/
def asciiLetter (c : Char) : Bool :=
  (decide (Char.ofNat 97 ≤ c) && decide (c ≤ Char.ofNat 122)) ||
  (decide (Char.ofNat 65 ≤ c) && decide (c ≤ Char.ofNat 90))

/-- One transformation rule from the configuration
(`{when?: {fileName?}, type, parameters}`). -/
structure Transformation where
  whenFileName : Option String := none
  ttype : String := ""
  parameters : List String := []

/-- The configuration data consumed by the provider
(`PathConfiguration.data`; the class itself lives outside the analysed
source and only carries these resolved settings). -/
structure Config where
  homeDirectory : String := ""
  workspaceRootPath : String := ""
  workspaceFolderPath : String := ""
  pathMappings : List (String × String) := []
  transformations : List Transformation := []
  excludedItems : List (String × String) := []
  withExtension : Bool := false
  triggerOutsideStrings : Bool := false
  enableFolderTrailingSlash : Bool := false

/-- Modelled from the spec: `FileInfo` (its source file is not part of the
analysed tree) carries the entry name, its absolute path and the
is-directory flag obtained by statting the entry. -/
structure FileInfo where
  name : String
  path : String
  isDir : Bool
deriving DecidableEq

/-- Abstract interface for the Node `path` module operations the provider
uses.  `depth` together with `dirname_depth` captures that repeatedly
taking `dirname` reaches a fixed point (the filesystem root), which is
what makes the `getNodeModulesPath` loop terminate. -/
structure PathLib where
  resolve : String → String
  join : String → String → String
  dirname : String → String
  parseDir : String → String
  depth : String → Nat
  dirname_depth : ∀ s, dirname s ≠ s → depth (dirname s) < depth s

/-- Abstract filesystem: existence / directory checks, the asynchronous
`readdir` (a rejected promise is `Except.error`), and the per-entry stat
used by the `FileInfo` constructor (`none` models a thrown stat error). -/
structure FS where
  existsSync : String → Bool
  isDirectory : String → Bool
  readdir : String → Except String (List String)
  stat : String → Option Bool

/-- Abstract JS regular-expression engine: `test pat s` models
`s.match(new RegExp(pat))` being non-null, and `replaceFirst pat repl s`
models `s.replace(new RegExp(pat), repl)` (single substitution, as the
regexes carry no global flag). -/
structure RegexEngine where
  test : String → String → Bool
  replaceFirst : String → String → String → String

/-- One produced completion candidate (`vscode.CompletionItem` fields the
provider sets; `retrigger` records the attached re-trigger command). -/
structure CompletionItem where
  label : String
  insertText : Option String := none
  sortText : Option String := none
  retrigger : Bool := false
deriving DecidableEq

/-- Separator class of `getUserPath`: space, tab, `(`, `\x7b`, `[`. -/
def sepChar (c : Char) : Bool :=
  c == ' ' || c == Char.ofNat 9 || c == '(' || c == obraceC || c == obrackC

/-- Quote class: single quote, double quote, backtick. -/
def isQuoteChar (c : Char) : Bool :=
  c == squote || c == dquote || c == btick

/-- The scanning loop of `getUserPath`: walk the characters of the line up
to the cursor, tracking the index of the last unescaped quote and the last
unescaped separator.  A backslash makes the loop skip the following
character entirely (`i++` inside the body plus the loop increment).  The
source uses `-1` sentinels; here they are `none`. -/
def upLoop (pos : Nat) : List Char → Nat → Option Nat → Option Nat → Option Nat × Option Nat
  | [], _, q, s => (q, s)
  | c :: rest, i, q, s =>
    if pos ≤ i then (q, s)
    else if c == bslash then
      match rest with
      | [] => (q, s)
      | _ :: rest2 => upLoop pos rest2 (i + 2) q s
    else if sepChar c then upLoop pos rest (i + 1) q (some i)
    else if isQuoteChar c then upLoop pos rest (i + 1) (some i) s
    else upLoop pos rest (i + 1) q s

/-- `getUserPath(currentLine, currentPosition)`: the path fragment typed so
far, from just after the last unescaped quote (or, failing that, the last
unescaped separator) up to the cursor. -/
def getUserPath (currentLine : String) (currentPosition : Nat) : String :=
  let qs := upLoop currentPosition currentLine.data 0 none none
  let startPlus1 : Nat :=
    match qs.1 with
    | some qi => qi + 1
    | none =>
      match qs.2 with
      | some si => si + 1
      | none => 0
  String.mk ((currentLine.data.drop startPlus1).take (currentPosition - startPlus1))

/-- One quote counter of the `shouldProvide` scan.  The source keeps three
independent counters in a single loop, each updated by
`acc += acc > 0 ? -1 : 1` when its quote occurs and the previous character
is not a backslash; the counters never interact, so each is modelled by
its own run of this fold.  `n` is the remaining character budget
(`position - i`), `prev` the previously seen character (`charAt(i-1)`,
`none` at the start of the line). -/
def quoteToggleLoop (q : Char) : List Char → Nat → Option Char → Nat → Nat
  | [], _, _, acc => acc
  | _ :: _, 0, _, acc => acc
  | c :: rest, n + 1, prev, acc =>
    quoteToggleLoop q rest n (some c)
      (if c == q && !(prev == some bslash) then (if acc > 0 then acc - 1 else acc + 1)
       else acc)

/-- `shouldProvide(currentLine, position)`: always true when
`triggerOutsideStrings` is set, else true iff some quote counter is open. -/
def shouldProvide (cfg : Config) (currentLine : String) (position : Nat) : Bool :=
  if cfg.triggerOutsideStrings then true
  else
    let single := quoteToggleLoop squote currentLine.data position none 0
    let double := quoteToggleLoop dquote currentLine.data position none 0
    let backtick := quoteToggleLoop btick currentLine.data position none 0
    !(single == 0) || !(double == 0) || !(backtick == 0)

/-- Placeholder-substitution step of `applyMapping`: `$\x7bworkspace\x7d`
is replaced (first occurrence, string-pattern `replace`) only when the
workspace root path is truthy, `$\x7bfolder\x7d` only when the workspace
folder path is truthy, `$\x7bhome\x7d` unconditionally. -/
def substTemplate (cfg : Config) (tpl : String) : String :=
  let p1 := if cfg.workspaceRootPath ≠ "" then
      replaceFirstStr tpl "$\x7bworkspace\x7d" cfg.workspaceRootPath
    else tpl
  let p2 := if cfg.workspaceFolderPath ≠ "" then
      replaceFirstStr p1 "$\x7bfolder\x7d" cfg.workspaceFolderPath
    else p1
  replaceFirstStr p2 "$\x7bhome\x7d" cfg.homeDirectory

/-- `applyMapping(insertedPath)`: resolve each mapping's template, then the
first mapping whose key is a prefix of the fragment or is the literal
`$root` wins (`Array.prototype.some` stops at the first hit); on a match
the first occurrence of the key text is removed from the fragment.  The
source signals "no mapping" with an empty `currentDir`. -/
def applyMapping (cfg : Config) (insertedPath : String) : String × String :=
  match (cfg.pathMappings.map (fun kv => (kv.1, substTemplate cfg kv.2))).find?
      (fun m => startsWithStr insertedPath m.1 || m.1 == "$root") with
  | some m => (m.2, replaceFirstStr insertedPath m.1 "")
  | none => ("", insertedPath)

/-- `getCurrentDirectory(fileName, insertedPath)`: the active file's parent
directory (`path.parse(fileName).dir || '/'`), overridden by the workspace
folder path when the fragment starts with `/` and that path is truthy;
resolved to absolute form. -/
def getCurrentDirectory (pl : PathLib) (cfg : Config) (fileName insertedPath : String) : String :=
  let currentDir := if pl.parseDir fileName = "" then "/" else pl.parseDir fileName
  let currentDir :=
    if startsWithStr insertedPath "/" && !(cfg.workspaceFolderPath == "") then
      cfg.workspaceFolderPath
    else currentDir
  pl.resolve currentDir

/-- `insertedPath.match(/^[a-z]:/i)`: first character an ASCII letter,
second a colon. -/
def isDriveLetter (insertedPath : String) : Bool :=
  match insertedPath.data with
  | a :: b :: _ => asciiLetter a && b == ':'
  | _ => false

/-- `isNodePackage(insertedPath, currentLine)`: the line matches
`/require|import/` and the fragment matches `/^[a-z]/i`. -/
def isNodePackage (insertedPath currentLine : String) : Bool :=
  (containsSub "require".data currentLine.data || containsSub "import".data currentLine.data) &&
  (match insertedPath.data with
   | a :: _ => asciiLetter a
   | [] => false)

/-- `getNodeModulesPath(currentDir)`: walk upward while `dirname` still
changes the path, returning the first level whose `node_modules` exists;
at the fixed point fall back to the workspace folder path. -/
def getNodeModulesPath (pl : PathLib) (fsys : FS) (cfg : Config) (currentDir : String) : String :=
  if h : currentDir = pl.dirname currentDir then
    pl.join cfg.workspaceFolderPath "node_modules"
  else
    if fsys.existsSync (pl.join currentDir "node_modules") then
      pl.join currentDir "node_modules"
    else
      getNodeModulesPath pl fsys cfg (pl.dirname currentDir)
termination_by pl.depth currentDir
decreasing_by exact pl.dirname_depth currentDir (fun hd => h hd.symm)

/-- `getFolderPath(fileName, currentLine, currentPosition)`: extract the
fragment, apply the mapping, pick the base directory (mapping target when
truthy, else the default current directory), then dispatch on disk path /
home path / package path / plain join, in that order. -/
def getFolderPath (pl : PathLib) (cfg : Config) (fsys : FS)
    (fileName currentLine : String) (currentPosition : Nat) : String :=
  let userPath := getUserPath currentLine currentPosition
  let mappingResult := applyMapping cfg userPath
  let insertedPath := mappingResult.2
  let currentDir :=
    if mappingResult.1 == "" then getCurrentDirectory pl cfg fileName insertedPath
    else mappingResult.1
  if isDriveLetter insertedPath then pl.resolve insertedPath
  else if startsWithStr insertedPath "~" then
    pl.join cfg.homeDirectory (String.mk (insertedPath.data.drop 1))
  else if isNodePackage insertedPath currentLine then
    pl.join (getNodeModulesPath pl fsys cfg currentDir) insertedPath
  else pl.join currentDir insertedPath

/-- `getFolderItems(folderPath)`: `fs.readdir` rejects the promise on
error (`reject(err)`); on success each entry is statted into a `FileInfo`,
entries whose stat throws being dropped silently. -/
def getFolderItems (pl : PathLib) (fsys : FS) (folderPath : String) :
    Except String (List FileInfo) :=
  match fsys.readdir folderPath with
  | .error err => .error err
  | .ok items =>
    .ok (items.filterMap (fun item =>
      (fsys.stat (pl.join folderPath item)).map
        (fun d => { name := item, path := pl.join folderPath item, isDir := d })))

/-- `getInsertText`'s transformation pass: the rules are applied in
declaration order over a shared accumulator.  A rule with a truthy
`when.fileName` pattern the entry's name does not match is skipped; a
`replace` rule with a truthy first parameter substitutes the first match
of that pattern (JS `replace` renders a missing replacement parameter as
the string `undefined`). -/
def runTransforms (re : RegexEngine) (name : String) (ts : List Transformation)
    (text : String) : String :=
  ts.foldl (fun insertText t =>
    let skip : Bool :=
      match t.whenFileName with
      | some p => !(p == "") && !(re.test p name)
      | none => false
    if skip then insertText
    else if t.ttype == "replace" && !((t.parameters.getD 0 "") == "") then
      re.replaceFirst (t.parameters.getD 0 "") (t.parameters.getD 1 "undefined") insertText
    else insertText) text

/-- `getInsertText(file)`: base name when `withExtension` is set or the
entry is a directory, else the base name with its extension stripped; then
the transformation pass. -/
def getInsertText (re : RegexEngine) (cfg : Config) (file : FileInfo) : String :=
  let insertText :=
    if cfg.withExtension || file.isDir then basenameStr file.name
    else basenameWithExt file.name (extnameStr file.name)
  runTransforms re file.name cfg.transformations insertText

/-- The `filter` method: an entry is kept unless some exclusion rule's
`when` glob matches the current file and the rule's key glob matches the
entry's path. -/
def fileFilter (glob : String → String → Bool) (cfg : Config)
    (currentFile : String) (file : FileInfo) : Bool :=
  !(cfg.excludedItems.any (fun rule => glob currentFile rule.2 && glob file.path rule.1))

/-- Candidate construction inside `provideCompletionItems`: directories get
a trailing slash on the label, sort key `d` and (when configured) the
re-trigger command; files get sort key `f`. -/
def mkCompletionItem (re : RegexEngine) (cfg : Config) (file : FileInfo) : CompletionItem :=
  { label := if file.isDir then file.name ++ "/" else file.name
    insertText := some (getInsertText re cfg file)
    sortText := some (if file.isDir then "d" else "f")
    retrigger := file.isDir && cfg.enableFolderTrailingSlash }

/-- The bare `..` item unshifted at the front of every produced list. -/
def dotdotItem : CompletionItem := { label := ".." }

/-- `provideCompletionItems(document, position, token)`: gate on
`shouldProvide`, resolve the folder, bail out with an empty list when it
does not exist or is not a directory, then list, filter, map and prepend
`..`.  The listing rejection is not caught, so it propagates as
`Except.error`.  The cancellation `token` parameter is part of the
signature but is never read by the body. -/
def provideCompletionItems (pl : PathLib) (re : RegexEngine)
    (glob : String → String → Bool) (cfg : Config) (fsys : FS)
    (fileName currentLine : String) (position : Nat) (token : Bool) :
    Except String (List CompletionItem) :=
  if !(shouldProvide cfg currentLine position) then .ok []
  else
    let folderPath := getFolderPath pl cfg fsys fileName currentLine position
    if !(fsys.existsSync folderPath) || !(fsys.isDirectory folderPath) then .ok []
    else
      match getFolderItems pl fsys folderPath with
      | .error err => .error err
      | .ok items =>
        .ok (dotdotItem ::
          (items.filter (fileFilter glob cfg fileName)).map (mkCompletionItem re cfg))

/-! ## Claim-side formulations

Definitions below restate conditions the way the specification's claims
word them, independently of the scanning loops above, so that the claim
theorems compare the two. -/

/-- Claim-side count for `shouldProvide`: the number of occurrences of the
quote `q` in positions `[0, pos)` of the line that are not immediately
preceded by a backslash, phrased over (previous, current) character
pairs. -/
def unescapedCount (q : Char) (line : String) (pos : Nat) : Nat :=
  (((none :: line.data.map some).zip line.data).take pos).countP
    (fun pc => pc.2 == q && !(pc.1 == some bslash))

/-- Claim-side for `getUserPath`: the delimiter-eligible positions of the
scan — every position in `[0, pos)` that is examined, where a backslash
removes both itself and the following position from eligibility. -/
def eligible (pos : Nat) : List Char → Nat → List (Nat × Char)
  | [], _ => []
  | c :: rest, i =>
    if pos ≤ i then []
    else if c == bslash then
      match rest with
      | [] => []
      | _ :: rest2 => eligible pos rest2 (i + 2)
    else (i, c) :: eligible pos rest (i + 1)

/-- Index of the last eligible position whose character satisfies `p`. -/
def lastIdxWith (p : Char → Bool) (l : List (Nat × Char)) : Option Nat :=
  ((l.filter (fun x => p x.2)).getLast?).map (fun x => x.1)

/-- Claim-side fragment extraction: substring from `start + 1` to the
cursor, `start` being the last unescaped quote position when a quote was
seen, else the last unescaped separator position, else `-1`. -/
def claimExtract (line : String) (pos : Nat) : String :=
  let el := eligible pos line.data 0
  let st : Nat :=
    match lastIdxWith isQuoteChar el with
    | some qi => qi + 1
    | none =>
      match lastIdxWith sepChar el with
      | some si => si + 1
      | none => 0
  String.mk ((line.data.drop st).take (pos - st))

/-- Claim-side drive-letter test (`^[a-zA-Z]:`). -/
def claimDrive (ip : String) : Bool :=
  match ip.data.head?, ip.data.tail.head? with
  | some a, some b => asciiLetter a && b == ':'
  | _, _ => false

/-- Claim-side home-path test: the fragment starts with `~`. -/
def claimTilde (ip : String) : Bool := ip.data.head? == some '~'

/-- Claim-side package-reference judgement: the original line contains the
substring `require` or `import`, and the fragment starts with an ASCII
letter. -/
def claimPackageRef (line ip : String) : Bool :=
  (decide ("require".data <:+: line.data) || decide ("import".data <:+: line.data)) &&
  (match ip.data.head? with
   | some a => asciiLetter a
   | none => false)

/-! ## Concrete interpretations used by witnesses and counterexamples -/

/-- A concrete `PathLib` for closed evaluations: plain slash-join, identity
resolution, and a `dirname` whose only fixed point is the root. -/
def trivLib : PathLib where
  resolve := id
  join := fun a b => a ++ "/" ++ b
  dirname := fun _ => "/"
  parseDir := fun _ => "/d"
  depth := fun s => if s = "/" then 0 else 1
  dirname_depth := by
    intro s h
    have hs : ¬ (s = "/") := fun he => h (he ▸ rfl)
    simp [hs]

/-- A concrete regex engine for closed evaluations: whole-string pattern
equality, literal first-occurrence replacement. -/
def trivRe : RegexEngine where
  test := fun pat s => pat == s
  replaceFirst := fun pat repl s => replaceFirstStr s pat repl

/-- A concrete glob matcher that matches nothing. -/
def trivGlob : String → String → Bool := fun _ _ => false

/-- Configuration that always triggers and keeps extensions. -/
def cfgA : Config := { triggerOutsideStrings := true, withExtension := true }

/-- Configuration with distinct workspace root and folder paths. -/
def cfgC : Config := { workspaceRootPath := "/wsroot", workspaceFolderPath := "/wsfolder" }

/-- Filesystem whose directory listing fails with a permission error. -/
def fsErr : FS where
  existsSync := fun _ => true
  isDirectory := fun _ => true
  readdir := fun _ => .error "EACCES"
  stat := fun _ => some false

/-- Filesystem with a single plain-file entry. -/
def fsOk : FS where
  existsSync := fun _ => true
  isDirectory := fun _ => true
  readdir := fun _ => .ok ["a.ts"]
  stat := fun _ => some false

/-- Filesystem on which nothing exists. -/
def fsNone : FS where
  existsSync := fun _ => false
  isDirectory := fun _ => false
  readdir := fun _ => .error "ENOENT"
  stat := fun _ => none

/-- `upd new old`: keep `old` unless the scan produced a `new` index; the
combinator relating the running `-1`-sentinel state of the source loops to
the claim-side last-index views. -/
def upd (o fb : Option Nat) : Option Nat :=
  match o with
  | some x => some x
  | none => fb

/-! ## Helper lemmas -/

theorem upd_none (o : Option Nat) : upd o none = o := by
  cases o <;> rfl

theorem containsSub_iff (pat l : List Char) : containsSub pat l = true ↔ pat <:+: l := by
  induction l with
  | nil =>
    simp [containsSub]
  | cons c rest ih =>
    simp [containsSub, List.infix_cons_iff, ih, List.isPrefixOf_iff_prefix]

theorem containsSub_eq (pat l : List Char) : containsSub pat l = decide (pat <:+: l) := by
  rw [Bool.eq_iff_iff]
  simp [containsSub_iff]

theorem claimDrive_eq (ip : String) : claimDrive ip = isDriveLetter ip := by
  rcases ip with ⟨l⟩
  rcases l with _ | ⟨a, _ | ⟨b, t⟩⟩ <;> rfl

theorem claimTilde_eq (ip : String) : claimTilde ip = startsWithStr ip "~" := by
  rcases ip with ⟨l⟩
  rcases l with _ | ⟨c, rest⟩
  · rfl
  · simp [claimTilde, startsWithStr, List.isPrefixOf, eq_comm]

theorem claimPackageRef_eq (line ip : String) :
    claimPackageRef line ip = isNodePackage ip line := by
  unfold claimPackageRef isNodePackage
  rw [containsSub_eq, containsSub_eq]
  rcases ip with ⟨_ | ⟨a, rest⟩⟩ <;> rfl

/-! ## Claim C3 -/

/-- Claim C3 (confirmed): `applyMapping` examines the configured mappings
in declaration order; the first mapping whose key is a prefix of the
fragment, or whose key is literally `$root`, wins, yielding the
placeholder-substituted target path and the fragment with the first
textual occurrence of the key removed; with no match the target is absent
(empty) and the fragment is unchanged; and the mapping
`@app ↦ $\x7bworkspace\x7d/src` with workspace root `/ws` sends
`@app/util` to `currentDir = /ws/src`, `insertedPath = /util`. -/
theorem C3_applyMapping_first_match :
    (∀ (cfg : Config) (ip : String) (pre : List (String × String)) (k t : String)
        (rest : List (String × String)),
      cfg.pathMappings = pre ++ (k, t) :: rest →
      (∀ kv ∈ pre, startsWithStr ip kv.1 = false ∧ kv.1 ≠ "$root") →
      (startsWithStr ip k = true ∨ k = "$root") →
      applyMapping cfg ip = (substTemplate cfg t, replaceFirstStr ip k "")) ∧
    (∀ (cfg : Config) (ip : String),
      (∀ kv ∈ cfg.pathMappings, startsWithStr ip kv.1 = false ∧ kv.1 ≠ "$root") →
      applyMapping cfg ip = ("", ip)) ∧
    applyMapping { workspaceRootPath := "/ws",
                   pathMappings := [("@app", "$\x7bworkspace\x7d/src")] } "@app/util"
      = ("/ws/src", "/util") := by
  refine ⟨?_, ?_, ?_⟩
  · intro cfg ip pre k t rest hmap hpre hk
    unfold applyMapping
    rw [hmap, List.map_append, List.map_cons, List.find?_append]
    have h1 : (pre.map (fun kv => (kv.1, substTemplate cfg kv.2))).find?
        (fun m => startsWithStr ip m.1 || m.1 == "$root") = none := by
      rw [List.find?_eq_none]
      intro x hx
      rw [List.mem_map] at hx
      obtain ⟨kv, hkv, rfl⟩ := hx
      have h := hpre kv hkv
      simp [h.1, h.2]
    have h2 : ((k, substTemplate cfg t) ::
        rest.map (fun kv => (kv.1, substTemplate cfg kv.2))).find?
        (fun m => startsWithStr ip m.1 || m.1 == "$root")
        = some (k, substTemplate cfg t) := by
      apply List.find?_cons_of_pos
      rcases hk with hk | hk <;> simp [hk]
    rw [h1, h2]
    rfl
  · intro cfg ip hall
    unfold applyMapping
    have h1 : (cfg.pathMappings.map (fun kv => (kv.1, substTemplate cfg kv.2))).find?
        (fun m => startsWithStr ip m.1 || m.1 == "$root") = none := by
      rw [List.find?_eq_none]
      intro x hx
      rw [List.mem_map] at hx
      obtain ⟨kv, hkv, rfl⟩ := hx
      have h := hall kv hkv
      simp [h.1, h.2]
    rw [h1]
  · rfl

/-- Witness for C3: the first-match conjunct applied at a concrete
configuration whose first mapping does not match and whose second does. -/
theorem C3_applyMapping_first_match_witness :
    applyMapping { workspaceRootPath := "/ws",
                   pathMappings := [("@lib", "/l"), ("@app", "$\x7bworkspace\x7d/src")] }
        "@app/util"
      = (substTemplate { workspaceRootPath := "/ws",
                         pathMappings := [("@lib", "/l"), ("@app", "$\x7bworkspace\x7d/src")] }
           "$\x7bworkspace\x7d/src",
         replaceFirstStr "@app/util" "@app" "") :=
  C3_applyMapping_first_match.1
    { workspaceRootPath := "/ws",
      pathMappings := [("@lib", "/l"), ("@app", "$\x7bworkspace\x7d/src")] }
    "@app/util" [("@lib", "/l")] "@app" "$\x7bworkspace\x7d/src" []
    rfl (by decide) (Or.inl (by decide))

/-! ## Claim C10 -/

/-- Claim C10 (confirmed): in `applyMapping`'s template substitution each
placeholder is replaced at most once (first textual occurrence only);
`$\x7bworkspace\x7d` is substituted only when the workspace root path is
non-empty and `$\x7bfolder\x7d` only when the workspace folder path is
non-empty — otherwise they remain literally — while `$\x7bhome\x7d` is
substituted unconditionally. -/
theorem C10_substTemplate_placeholders :
    (∀ (cfg : Config) (tpl : String),
      cfg.workspaceRootPath = "" → cfg.workspaceFolderPath = "" →
      substTemplate cfg tpl = replaceFirstStr tpl "$\x7bhome\x7d" cfg.homeDirectory) ∧
    substTemplate { workspaceRootPath := "/ws", workspaceFolderPath := "/wf",
                    homeDirectory := "/h" }
      "$\x7bworkspace\x7d|$\x7bworkspace\x7d|$\x7bfolder\x7d|$\x7bfolder\x7d|$\x7bhome\x7d|$\x7bhome\x7d"
      = "/ws|$\x7bworkspace\x7d|/wf|$\x7bfolder\x7d|/h|$\x7bhome\x7d" ∧
    substTemplate { workspaceRootPath := "", workspaceFolderPath := "",
                    homeDirectory := "/h" }
      "$\x7bworkspace\x7d|$\x7bworkspace\x7d|$\x7bfolder\x7d|$\x7bfolder\x7d|$\x7bhome\x7d|$\x7bhome\x7d"
      = "$\x7bworkspace\x7d|$\x7bworkspace\x7d|$\x7bfolder\x7d|$\x7bfolder\x7d|/h|$\x7bhome\x7d" := by
  refine ⟨?_, by rfl, by rfl⟩
  intro cfg tpl h1 h2
  unfold substTemplate
  simp [h1, h2]

/-- Witness for C10: the general conjunct applied at a concrete
configuration with both workspace paths unconfigured. -/
theorem C10_substTemplate_placeholders_witness :
    substTemplate { homeDirectory := "/h" } "x/$\x7bhome\x7d/y"
      = replaceFirstStr "x/$\x7bhome\x7d/y" "$\x7bhome\x7d" "/h" :=
  C10_substTemplate_placeholders.1 { homeDirectory := "/h" } "x/$\x7bhome\x7d/y" rfl rfl

/-! ## Claim C6 -/

/-- Claim C6 (confirmed): whenever `applyMapping` yields no target
directory, the base directory used for resolution is the active file's
parent directory, except when the mapped `insertedPath` starts with `/`
and a workspace path is configured, in which case the workspace path is
used; the chosen directory is resolved to absolute form.  The first
conjunct characterises `getCurrentDirectory`; the others show that
`getFolderPath` routes through it exactly when the mapping produced no
target, both on the plain-join branch and on the package branch. -/
theorem C6_default_directory :
    (∀ (pl : PathLib) (cfg : Config) (fileName ip : String),
      pl.parseDir fileName ≠ "" →
      getCurrentDirectory pl cfg fileName ip =
        pl.resolve (if startsWithStr ip "/" = true ∧ cfg.workspaceFolderPath ≠ "" then
            cfg.workspaceFolderPath
          else pl.parseDir fileName)) ∧
    (∀ (pl : PathLib) (cfg : Config) (fsys : FS) (fileName line : String) (pos : Nat),
      (applyMapping cfg (getUserPath line pos)).1 = "" →
      isDriveLetter (applyMapping cfg (getUserPath line pos)).2 = false →
      startsWithStr (applyMapping cfg (getUserPath line pos)).2 "~" = false →
      isNodePackage (applyMapping cfg (getUserPath line pos)).2 line = false →
      getFolderPath pl cfg fsys fileName line pos =
        pl.join (getCurrentDirectory pl cfg fileName (applyMapping cfg (getUserPath line pos)).2)
          (applyMapping cfg (getUserPath line pos)).2) ∧
    (∀ (pl : PathLib) (cfg : Config) (fsys : FS) (fileName line : String) (pos : Nat),
      (applyMapping cfg (getUserPath line pos)).1 = "" →
      isDriveLetter (applyMapping cfg (getUserPath line pos)).2 = false →
      startsWithStr (applyMapping cfg (getUserPath line pos)).2 "~" = false →
      isNodePackage (applyMapping cfg (getUserPath line pos)).2 line = true →
      getFolderPath pl cfg fsys fileName line pos =
        pl.join
          (getNodeModulesPath pl fsys cfg
            (getCurrentDirectory pl cfg fileName (applyMapping cfg (getUserPath line pos)).2))
          (applyMapping cfg (getUserPath line pos)).2) := by
  refine ⟨?_, ?_, ?_⟩
  · intro pl cfg fileName ip hdir
    unfold getCurrentDirectory
    by_cases hs : startsWithStr ip "/" = true
    · by_cases hw : cfg.workspaceFolderPath = ""
      · simp [hs, hw, hdir]
      · simp [hs, hw, hdir]
    · have hs' : startsWithStr ip "/" = false := by
        cases hbool : startsWithStr ip "/"
        · rfl
        · exact absurd hbool hs
      simp [hs', hdir]
  · intro pl cfg fsys fileName line pos hmap hdrv htld hpkg
    unfold getFolderPath
    simp [hmap, hdrv, htld, hpkg]
  · intro pl cfg fsys fileName line pos hmap hdrv htld hpkg
    unfold getFolderPath
    simp [hmap, hdrv, htld, hpkg]

/-- Witness for C6: the `getCurrentDirectory` conjunct applied at a
concrete library, configuration and fragment. -/
theorem C6_default_directory_witness :
    getCurrentDirectory trivLib { workspaceFolderPath := "/wf" } "/d/f.ts" "/x"
      = trivLib.resolve (if startsWithStr "/x" "/" = true ∧ ("/wf" : String) ≠ "" then "/wf"
          else trivLib.parseDir "/d/f.ts") :=
  C6_default_directory.1 trivLib { workspaceFolderPath := "/wf" } "/d/f.ts" "/x" (by decide)

/-! ## Claim C2 -/

/-- Claim C2 (confirmed): after extraction and mapping, `getFolderPath`
applies the first matching rule in this fixed order: drive-letter paths
are resolved as absolute disk paths ignoring the current directory; then
`~`-paths join the home directory with the remainder after the `~`; then
package references (line contains `require` or `import` as a substring and
the fragment starts with an ASCII letter) join the nearest
package-dependency directory located from the current directory with the
fragment; else the current directory is joined with the fragment. -/
theorem C2_getFolderPath_dispatch :
    ∀ (pl : PathLib) (cfg : Config) (fsys : FS) (fileName line : String) (pos : Nat),
      getFolderPath pl cfg fsys fileName line pos =
        (let ip := (applyMapping cfg (getUserPath line pos)).2
         let cd := if (applyMapping cfg (getUserPath line pos)).1 == "" then
             getCurrentDirectory pl cfg fileName ip
           else (applyMapping cfg (getUserPath line pos)).1
         if claimDrive ip then pl.resolve ip
         else if claimTilde ip then pl.join cfg.homeDirectory (String.mk (ip.data.drop 1))
         else if claimPackageRef line ip then
           pl.join (getNodeModulesPath pl fsys cfg cd) ip
         else pl.join cd ip) := by
  intro pl cfg fsys fileName line pos
  simp only [getFolderPath, claimDrive_eq, claimTilde_eq, claimPackageRef_eq]

/-! ## Claim C4 -/

/-- The flip-flop counter of the `shouldProvide` scan is open exactly when
the number of unescaped occurrences processed so far is odd. -/
theorem quoteToggleLoop_parity (q : Char) :
    ∀ (chars : List Char) (n : Nat) (prev : Option Char) (acc : Nat), acc ≤ 1 →
      quoteToggleLoop q chars n prev acc =
        (acc + (((prev :: chars.map some).zip chars).take n).countP
          (fun pc => pc.2 == q && !(pc.1 == some bslash))) % 2 := by
  intro chars
  induction chars with
  | nil =>
    intro n prev acc hacc
    simp [quoteToggleLoop]
    omega
  | cons c rest ih =>
    intro n prev acc hacc
    cases n with
    | zero =>
      simp [quoteToggleLoop]
      omega
    | succ n =>
      have hzip : ((prev :: (c :: rest).map some).zip (c :: rest)).take (n + 1)
          = (prev, c) :: (((some c :: rest.map some).zip rest).take n) := by
        simp [List.zip_cons_cons]
      rw [hzip, List.countP_cons]
      show quoteToggleLoop q rest n (some c)
          (if c == q && !(prev == some bslash) then (if 0 < acc then acc - 1 else acc + 1)
           else acc) = _
      cases hb : (c == q && !(prev == some bslash)) with
      | false =>
        rw [if_neg (by simp [hb]), ih n (some c) acc hacc]
        simp [hb]
      | true =>
        have hacc' : (if 0 < acc then acc - 1 else acc + 1) ≤ 1 := by
          by_cases hpos : 0 < acc <;> simp [hpos] <;> omega
        rw [if_pos (by simp [hb]), ih n (some c) _ hacc']
        by_cases hpos : 0 < acc <;> simp [hb, hpos] <;> omega

/-- Claim C4 (confirmed): `shouldProvide` returns true iff the
`triggerOutsideStrings` flag is set, or for at least one quote kind the
count of its occurrences in `[0, cursor)` not immediately preceded by a
backslash is odd; in particular it is true with the cursor inside a
matched pair of unescaped quotes and false outside any pair. -/
theorem C4_shouldProvide_iff :
    (∀ (cfg : Config) (line : String) (pos : Nat),
      shouldProvide cfg line pos = true ↔
        (cfg.triggerOutsideStrings = true ∨
         Odd (unescapedCount squote line pos) ∨
         Odd (unescapedCount dquote line pos) ∨
         Odd (unescapedCount btick line pos))) ∧
    shouldProvide {} "foo(\"bar baz\")" 8 = true ∧
    shouldProvide {} "foo(\"bar baz\")" 3 = false := by
  refine ⟨?_, by decide, by decide⟩
  intro cfg line pos
  unfold shouldProvide
  cases ht : cfg.triggerOutsideStrings with
  | true => simp
  | false =>
    have e1 := quoteToggleLoop_parity squote line.data pos none 0 (by omega)
    have e2 := quoteToggleLoop_parity dquote line.data pos none 0 (by omega)
    have e3 := quoteToggleLoop_parity btick line.data pos none 0 (by omega)
    rw [e1, e2, e3]
    simp only [unescapedCount]
    generalize ((((none : Option Char) :: line.data.map some).zip line.data).take pos).countP
      (fun pc => pc.2 == squote && !(pc.1 == some bslash)) = A
    generalize ((((none : Option Char) :: line.data.map some).zip line.data).take pos).countP
      (fun pc => pc.2 == dquote && !(pc.1 == some bslash)) = B
    generalize ((((none : Option Char) :: line.data.map some).zip line.data).take pos).countP
      (fun pc => pc.2 == btick && !(pc.1 == some bslash)) = C
    simp only [if_false, Bool.false_eq_true, false_or, Nat.zero_add, Bool.or_eq_true,
      Bool.not_eq_true', beq_eq_false_iff_ne, ne_eq, Nat.odd_iff]
    omega

/-! ## Claim C5 -/

theorem sep_not_quote (c : Char) (h : sepChar c = true) : isQuoteChar c = false := by
  simp only [sepChar, Bool.or_eq_true, beq_iff_eq] at h
  rcases h with (((h | h) | h) | h) | h <;> subst h <;> decide

theorem lastIdxWith_cons_neg (p : Char → Bool) (i : Nat) (c : Char)
    (l : List (Nat × Char)) (h : p c = false) :
    lastIdxWith p ((i, c) :: l) = lastIdxWith p l := by
  simp [lastIdxWith, List.filter_cons, h]

theorem lastIdxWith_cons_pos (p : Char → Bool) (i : Nat) (c : Char)
    (l : List (Nat × Char)) (fb : Option Nat) (h : p c = true) :
    upd (lastIdxWith p ((i, c) :: l)) fb = upd (lastIdxWith p l) (some i) := by
  unfold lastIdxWith
  rw [List.filter_cons]
  simp only [h, if_true]
  cases hl : l.filter (fun x => p x.2) with
  | nil => simp [upd]
  | cons y ys =>
    rw [List.getLast?_cons_cons]
    cases hg : (y :: ys).getLast? with
    | none => exact absurd (List.getLast?_eq_none_iff.mp hg) (by simp)
    | some z => simp [upd]

theorem upLoop_stop (pos : Nat) (c : Char) (rest : List Char) (i : Nat)
    (q s : Option Nat) (h : pos ≤ i) : upLoop pos (c :: rest) i q s = (q, s) := by
  conv_lhs => unfold upLoop
  rw [if_pos h]

theorem upLoop_bs_nil (pos : Nat) (c : Char) (i : Nat) (q s : Option Nat)
    (h : ¬ pos ≤ i) (hb : (c == bslash) = true) : upLoop pos [c] i q s = (q, s) := by
  conv_lhs => unfold upLoop
  rw [if_neg h]
  simp [hb]

theorem upLoop_bs_cons (pos : Nat) (c d : Char) (rest2 : List Char) (i : Nat)
    (q s : Option Nat) (h : ¬ pos ≤ i) (hb : (c == bslash) = true) :
    upLoop pos (c :: d :: rest2) i q s = upLoop pos rest2 (i + 2) q s := by
  conv_lhs => unfold upLoop
  rw [if_neg h]
  simp [hb]

theorem upLoop_sep (pos : Nat) (c : Char) (rest : List Char) (i : Nat)
    (q s : Option Nat) (h : ¬ pos ≤ i) (hb : (c == bslash) = false)
    (hs : sepChar c = true) :
    upLoop pos (c :: rest) i q s = upLoop pos rest (i + 1) q (some i) := by
  conv_lhs => unfold upLoop
  rw [if_neg h]
  simp [hb, hs]

theorem upLoop_quote (pos : Nat) (c : Char) (rest : List Char) (i : Nat)
    (q s : Option Nat) (h : ¬ pos ≤ i) (hb : (c == bslash) = false)
    (hs : sepChar c = false) (hq : isQuoteChar c = true) :
    upLoop pos (c :: rest) i q s = upLoop pos rest (i + 1) (some i) s := by
  conv_lhs => unfold upLoop
  rw [if_neg h]
  simp [hb, hs, hq]

theorem upLoop_other (pos : Nat) (c : Char) (rest : List Char) (i : Nat)
    (q s : Option Nat) (h : ¬ pos ≤ i) (hb : (c == bslash) = false)
    (hs : sepChar c = false) (hq : isQuoteChar c = false) :
    upLoop pos (c :: rest) i q s = upLoop pos rest (i + 1) q s := by
  conv_lhs => unfold upLoop
  rw [if_neg h]
  simp [hb, hs, hq]

theorem eligible_stop (pos : Nat) (c : Char) (rest : List Char) (i : Nat)
    (h : pos ≤ i) : eligible pos (c :: rest) i = [] := by
  conv_lhs => unfold eligible
  rw [if_pos h]

theorem eligible_bs_nil (pos : Nat) (c : Char) (i : Nat)
    (h : ¬ pos ≤ i) (hb : (c == bslash) = true) : eligible pos [c] i = [] := by
  conv_lhs => unfold eligible
  rw [if_neg h]
  simp [hb]

theorem eligible_bs_cons (pos : Nat) (c d : Char) (rest2 : List Char) (i : Nat)
    (h : ¬ pos ≤ i) (hb : (c == bslash) = true) :
    eligible pos (c :: d :: rest2) i = eligible pos rest2 (i + 2) := by
  conv_lhs => unfold eligible
  rw [if_neg h]
  simp [hb]

theorem eligible_cons (pos : Nat) (c : Char) (rest : List Char) (i : Nat)
    (h : ¬ pos ≤ i) (hb : (c == bslash) = false) :
    eligible pos (c :: rest) i = (i, c) :: eligible pos rest (i + 1) := by
  conv_lhs => unfold eligible
  rw [if_neg h]
  simp [hb]

/-- The `getUserPath` scanning loop computes, for each delimiter class,
the index of the last eligible position holding a character of that class,
falling back to the incoming state. -/
theorem upLoop_eq (pos : Nat) :
    ∀ (n : Nat) (chars : List Char), chars.length ≤ n →
    ∀ (i : Nat) (q s : Option Nat),
      upLoop pos chars i q s =
        (upd (lastIdxWith isQuoteChar (eligible pos chars i)) q,
         upd (lastIdxWith sepChar (eligible pos chars i)) s) := by
  intro n
  induction n with
  | zero =>
    intro chars hlen i q s
    have hnil : chars = [] := List.eq_nil_of_length_eq_zero (Nat.le_zero.mp hlen)
    subst hnil
    rfl
  | succ n ih =>
    intro chars hlen i q s
    cases chars with
    | nil => rfl
    | cons c rest =>
      by_cases hpos : pos ≤ i
      · rw [upLoop_stop pos c rest i q s hpos, eligible_stop pos c rest i hpos]
        rfl
      · by_cases hbs : (c == bslash) = true
        · cases rest with
          | nil =>
            rw [upLoop_bs_nil pos c i q s hpos hbs, eligible_bs_nil pos c i hpos hbs]
            rfl
          | cons d rest2 =>
            have h2 : rest2.length ≤ n := by
              simp only [List.length_cons] at hlen
              omega
            rw [upLoop_bs_cons pos c d rest2 i q s hpos hbs,
                eligible_bs_cons pos c d rest2 i hpos hbs]
            exact ih rest2 h2 (i + 2) q s
        · have hbs' : (c == bslash) = false := by
            revert hbs
            cases c == bslash <;> simp
          have h2 : rest.length ≤ n := by
            simp only [List.length_cons] at hlen
            omega
          have hstep := eligible_cons pos c rest i hpos hbs'
          by_cases hsep : sepChar c = true
          · have hq : isQuoteChar c = false := sep_not_quote c hsep
            rw [upLoop_sep pos c rest i q s hpos hbs' hsep, hstep,
                ih rest h2 (i + 1) q (some i),
                lastIdxWith_cons_neg isQuoteChar i c _ hq,
                lastIdxWith_cons_pos sepChar i c _ s hsep]
          · have hsep' : sepChar c = false := by
              revert hsep
              cases sepChar c <;> simp
            by_cases hqt : isQuoteChar c = true
            · rw [upLoop_quote pos c rest i q s hpos hbs' hsep' hqt, hstep,
                  ih rest h2 (i + 1) (some i) s,
                  lastIdxWith_cons_neg sepChar i c _ hsep',
                  lastIdxWith_cons_pos isQuoteChar i c _ q hqt]
            · have hqt' : isQuoteChar c = false := by
                revert hqt
                cases isQuoteChar c <;> simp
              rw [upLoop_other pos c rest i q s hpos hbs' hsep' hqt', hstep,
                  ih rest h2 (i + 1) q s,
                  lastIdxWith_cons_neg sepChar i c _ hsep',
                  lastIdxWith_cons_neg isQuoteChar i c _ hqt']

/-- Claim C5 (confirmed): `getUserPath` returns the substring of the line
from `start + 1` to the cursor, where `start` is the index of the last
unescaped quote seen in `[0, cursor)` if any, else the index of the last
unescaped separator, else `-1`; a character immediately following a
backslash is skipped entirely and can never act as a delimiter; and on
`import "./src/"` with the cursor just before the closing quote the
fragment is `./src/`. -/
theorem C5_getUserPath_spec :
    (∀ (line : String) (pos : Nat), getUserPath line pos = claimExtract line pos) ∧
    getUserPath "import \"./src/\"" 14 = "./src/" := by
  refine ⟨?_, by decide⟩
  intro line pos
  unfold getUserPath claimExtract
  rw [upLoop_eq pos line.data.length line.data le_rfl 0 none none, upd_none, upd_none]

/-! ## Claim C7 -/

theorem getNodeModulesPath_fix (pl : PathLib) (fsys : FS) (cfg : Config) (dir : String)
    (h : pl.dirname dir = dir) :
    getNodeModulesPath pl fsys cfg dir = pl.join cfg.workspaceFolderPath "node_modules" := by
  rw [getNodeModulesPath]
  rw [dif_pos h.symm]

theorem getNodeModulesPath_hit (pl : PathLib) (fsys : FS) (cfg : Config) (dir : String)
    (h : pl.dirname dir ≠ dir)
    (he : fsys.existsSync (pl.join dir "node_modules") = true) :
    getNodeModulesPath pl fsys cfg dir = pl.join dir "node_modules" := by
  rw [getNodeModulesPath]
  rw [dif_neg (fun hd => h hd.symm), if_pos he]

theorem getNodeModulesPath_up (pl : PathLib) (fsys : FS) (cfg : Config) (dir : String)
    (h : pl.dirname dir ≠ dir)
    (he : fsys.existsSync (pl.join dir "node_modules") = false) :
    getNodeModulesPath pl fsys cfg dir = getNodeModulesPath pl fsys cfg (pl.dirname dir) := by
  conv_lhs => rw [getNodeModulesPath]
  rw [dif_neg (fun hd => h hd.symm), if_neg (by simp [he])]

/-- Counterexample for C7: with distinct workspace root (`/wsroot`) and
workspace folder (`/wsfolder`) paths and no `node_modules` anywhere, the
walk exhausted at the root returns the workspace FOLDER path joined with
`node_modules`, not the workspace root path the claim names. -/
theorem C7_counterexample :
    getNodeModulesPath trivLib fsNone cfgC "/" = trivLib.join cfgC.workspaceFolderPath "node_modules" ∧
    trivLib.join cfgC.workspaceFolderPath "node_modules"
      ≠ trivLib.join cfgC.workspaceRootPath "node_modules" := by
  refine ⟨getNodeModulesPath_fix trivLib fsNone cfgC "/" rfl, by decide⟩

/-- Claim C7 (corrected): `getNodeModulesPath` walks upward via
parent-directory steps, at each level strictly before the `dirname` fixed
point checking whether a `node_modules` directory exists there and
returning the first one found; when the parent step no longer changes the
path without success it returns the workspace FOLDER path (not the
workspace root path) joined with `node_modules`. -/
theorem C7_nodeModules_walk :
    (∀ (pl : PathLib) (fsys : FS) (cfg : Config) (dir : String),
      pl.dirname dir ≠ dir → fsys.existsSync (pl.join dir "node_modules") = true →
      getNodeModulesPath pl fsys cfg dir = pl.join dir "node_modules") ∧
    (∀ (pl : PathLib) (fsys : FS) (cfg : Config) (dir : String),
      pl.dirname dir ≠ dir → fsys.existsSync (pl.join dir "node_modules") = false →
      getNodeModulesPath pl fsys cfg dir = getNodeModulesPath pl fsys cfg (pl.dirname dir)) ∧
    (∀ (pl : PathLib) (fsys : FS) (cfg : Config) (dir : String),
      pl.dirname dir = dir →
      getNodeModulesPath pl fsys cfg dir = pl.join cfg.workspaceFolderPath "node_modules") :=
  ⟨fun pl fsys cfg dir h he => getNodeModulesPath_hit pl fsys cfg dir h he,
   fun pl fsys cfg dir h he => getNodeModulesPath_up pl fsys cfg dir h he,
   fun pl fsys cfg dir h => getNodeModulesPath_fix pl fsys cfg dir h⟩

/-- Witness for C7: the fixed-point conjunct applied at the root with a
concrete library and configuration. -/
theorem C7_nodeModules_walk_witness :
    getNodeModulesPath trivLib fsOk cfgC "/"
      = trivLib.join cfgC.workspaceFolderPath "node_modules" :=
  C7_nodeModules_walk.2.2 trivLib fsOk cfgC "/" rfl

/-! ## Claim C1 -/

/-- Counterexample for C1: a filesystem whose directory passes the
existence-and-is-directory check but whose listing fails makes
`provideCompletionItems` produce the rejected outcome, not the empty
candidate list the claim requires. -/
theorem C1_counterexample :
    provideCompletionItems trivLib trivRe trivGlob cfgA fsErr "/d/f.ts" "x" 0 false
      = .error "EACCES" ∧
    (Except.error "EACCES" : Except String (List CompletionItem)) ≠ .ok [] :=
  ⟨rfl, fun h => Except.noConfusion h⟩

/-- Claim C1 (corrected): when the resolved directory passes the
existence-and-is-directory check but reading its entries fails, the
rejection propagates out of `provideCompletionItems` unhandled — the
caller receives the rejected result, not an empty candidate list. -/
theorem C1_error_propagates :
    ∀ (pl : PathLib) (re : RegexEngine) (glob : String → String → Bool)
      (cfg : Config) (fsys : FS) (fileName line : String) (pos : Nat)
      (token : Bool) (e : String),
      shouldProvide cfg line pos = true →
      fsys.existsSync (getFolderPath pl cfg fsys fileName line pos) = true →
      fsys.isDirectory (getFolderPath pl cfg fsys fileName line pos) = true →
      fsys.readdir (getFolderPath pl cfg fsys fileName line pos) = .error e →
      provideCompletionItems pl re glob cfg fsys fileName line pos token = .error e := by
  intro pl re glob cfg fsys fileName line pos token e h1 h2 h3 h4
  simp [provideCompletionItems, getFolderItems, h1, h2, h3, h4]

/-- Witness for C1: the propagation theorem applied at a concrete
configuration and failing filesystem. -/
theorem C1_error_propagates_witness :
    provideCompletionItems trivLib trivRe trivGlob cfgA fsErr "/d2/g.ts" "y" 0 true
      = .error "EACCES" :=
  C1_error_propagates trivLib trivRe trivGlob cfgA fsErr "/d2/g.ts" "y" 0 true "EACCES"
    rfl rfl rfl rfl

/-! ## Claim C9 -/

/-- Counterexample for C9: with the cancellation token signalled
(`token = true`) while the listing resolves, the full candidate list is
still delivered — not the empty/cancelled outcome the claim requires. -/
theorem C9_counterexample :
    provideCompletionItems trivLib trivRe trivGlob cfgA fsOk "/d/f.ts" "x" 0 true
      = .ok [dotdotItem,
             { label := "a.ts", insertText := some "a.ts", sortText := some "f",
               retrigger := false }] ∧
    (Except.ok [dotdotItem,
       { label := "a.ts", insertText := some "a.ts", sortText := some "f",
         retrigger := false }] : Except String (List CompletionItem))
      ≠ .ok [] := by
  refine ⟨rfl, ?_⟩
  intro h
  injection h with h2
  exact List.noConfusion h2

/-- Claim C9 (corrected): `provideCompletionItems` never reads the
cancellation token — its outcome is identical for any token state, so the
eventual listing result is used to complete the candidate list even when
cancellation was signalled. -/
theorem C9_token_ignored :
    ∀ (pl : PathLib) (re : RegexEngine) (glob : String → String → Bool)
      (cfg : Config) (fsys : FS) (fileName line : String) (pos : Nat)
      (t1 t2 : Bool),
      provideCompletionItems pl re glob cfg fsys fileName line pos t1 =
        provideCompletionItems pl re glob cfg fsys fileName line pos t2 :=
  fun _ _ _ _ _ _ _ _ _ _ => rfl

/-! ## Claim C8 -/

/-- Claim C8 (confirmed): `getInsertText` produces the entry's base name
when `withExtension` is set or the entry is a directory, and the base name
with its extension stripped otherwise (`index.ts` becomes `index` when
`withExtension = false`, stays `index.ts` when true); the configured
transformation rules are applied in declaration order (a split of the rule
list composes sequentially, later rules operating on earlier output), each
rule skipped when it declares a file-name pattern the entry's name does
not match, and each `replace` rule — whether it declares no pattern or a
pattern the entry's name does match — substituting only the first match of
its pattern. -/
theorem C8_getInsertText_spec :
    (∀ (re : RegexEngine) (cfg : Config) (f : FileInfo),
      (cfg.withExtension = true ∨ f.isDir = true) →
      getInsertText re cfg f = runTransforms re f.name cfg.transformations (basenameStr f.name)) ∧
    (∀ (re : RegexEngine) (cfg : Config) (f : FileInfo),
      cfg.withExtension = false → f.isDir = false →
      getInsertText re cfg f =
        runTransforms re f.name cfg.transformations
          (basenameWithExt f.name (extnameStr f.name))) ∧
    (getInsertText trivRe { withExtension := false }
        { name := "index.ts", path := "/p/index.ts", isDir := false } = "index" ∧
     getInsertText trivRe { withExtension := true }
        { name := "index.ts", path := "/p/index.ts", isDir := false } = "index.ts") ∧
    (∀ (re : RegexEngine) (name : String) (ts1 ts2 : List Transformation) (text : String),
      runTransforms re name (ts1 ++ ts2) text =
        runTransforms re name ts2 (runTransforms re name ts1 text)) ∧
    (∀ (re : RegexEngine) (name : String) (t : Transformation) (ts : List Transformation)
        (text p : String),
      t.whenFileName = some p → p ≠ "" → re.test p name = false →
      runTransforms re name (t :: ts) text = runTransforms re name ts text) ∧
    (∀ (re : RegexEngine) (name : String) (t : Transformation) (ts : List Transformation)
        (text p0 p1 : String) (ps : List String),
      t.whenFileName = none → t.ttype = "replace" → t.parameters = p0 :: p1 :: ps →
      p0 ≠ "" →
      runTransforms re name (t :: ts) text =
        runTransforms re name ts (re.replaceFirst p0 p1 text)) ∧
    (∀ (re : RegexEngine) (name : String) (t : Transformation) (ts : List Transformation)
        (text p p0 p1 : String) (ps : List String),
      t.whenFileName = some p → re.test p name = true →
      t.ttype = "replace" → t.parameters = p0 :: p1 :: ps →
      p0 ≠ "" →
      runTransforms re name (t :: ts) text =
        runTransforms re name ts (re.replaceFirst p0 p1 text)) := by
  refine ⟨?_, ?_, ⟨by rfl, by rfl⟩, ?_, ?_, ?_, ?_⟩
  · intro re cfg f h
    unfold getInsertText
    rcases h with h | h <;> simp [h]
  · intro re cfg f h1 h2
    unfold getInsertText
    simp [h1, h2]
  · intro re name ts1 ts2 text
    unfold runTransforms
    exact List.foldl_append _ _ _ _
  · intro re name t ts text p hw hp ht
    unfold runTransforms
    rw [List.foldl_cons]
    congr 1
    simp [hw, hp, ht]
  · intro re name t ts text p0 p1 ps hn htt hparams hp0
    unfold runTransforms
    rw [List.foldl_cons]
    congr 1
    simp [hn, htt, hparams, hp0]
  · intro re name t ts text p p0 p1 ps hw htest htt hparams hp0
    unfold runTransforms
    rw [List.foldl_cons]
    congr 1
    simp [hw, htest, htt, hparams, hp0]

/-- Witness for C8: the matching-pattern replace conjunct applied to a
concrete rule whose `whenFileName` pattern matches the entry's name, so
its substitution is performed. -/
theorem C8_getInsertText_spec_witness :
    runTransforms trivRe "a.ts"
        [{ whenFileName := some "a.ts", ttype := "replace", parameters := ["a", "b"] }] "txt"
      = runTransforms trivRe "a.ts" [] (trivRe.replaceFirst "a" "b" "txt") :=
  C8_getInsertText_spec.2.2.2.2.2.2 trivRe "a.ts"
    { whenFileName := some "a.ts", ttype := "replace", parameters := ["a", "b"] } [] "txt"
    "a.ts" "a" "b" [] rfl rfl rfl rfl (by decide)

end PathAutocomplete
